import Mathlib

/-!
Verification of the converter registration layer of the asdf serialization
package, centred on `ConverterProxy` in `asdf/extension/_converter.py`,
plus spec-modelled components (load-path tree conversion, plugin discovery)
whose implementation modules are represented here only by their tests.
-/

namespace Asdf

/-- Python exceptions raised by the modelled code paths. -/
inductive PyError where
  | typeError (msg : String)
  | runtimeError (msg : String)
  | indexError (msg : String)
deriving DecidableEq, Repr

/-- One element of the Python value `delegate.tags`: either a string pattern
or a value of some other runtime type (which `isinstance(tag, str)` rejects). -/
inductive TagDecl where
  | pat (s : String)
  | notStr
deriving DecidableEq, Repr

/-- One element of the Python value `delegate.types`: a string (fully
qualified name), a type object, or a value of some other runtime type
(which `isinstance(typ, (str, type))` rejects). -/
inductive TypeDecl where
  | str (s : String)
  | typeRef (name : String)
  | other
deriving DecidableEq, Repr

/-- A concrete tag definition owned by an extension; only its `tag_uri`
field is read by `ConverterProxy.__init__`. -/
structure TagDef where
  tag_uri : String
deriving DecidableEq, Repr

/-- The part of an `ExtensionProxy` read by `ConverterProxy.__init__`:
its identity (Python object identity, for `__eq__`/`__hash__`) and its
list of concrete tag definitions. -/
structure Extension where
  id : Nat
  tags : List TagDef

/-- The part of a `Converter` delegate read by `ConverterProxy`:
its identity, its `tags` and `types` declarations, its optional
`select_tag` method (`none` models `not hasattr(delegate, "select_tag")`),
and whether `Converter in delegate.__class__.__mro__` (a genuine subclass,
as opposed to a virtual subclass admitted by `__subclasshook__`). -/
structure Delegate where
  id : Nat
  tags : List TagDecl
  types : List TypeDecl
  select_tag : Option (Nat → List String → Nat → Option String)
  converterInMro : Bool

/-- Model of Python `sorted(s)` applied to the set accumulated in
`relevant_tags`: the distinct elements of `l` in increasing order. -/
def sortedSet (l : List String) : List String :=
  l.dedup.insertionSort (· ≤ ·)

/-- The tag-resolution loop of `ConverterProxy.__init__` (lines 164-170):
every string pattern contributes the extension tag URIs it matches
(via `uri_match`, passed here as the parameter `uriMatch`); a non-string
pattern raises `TypeError`. -/
def resolveRelevantTags (uriMatch : String → String → Bool) (extension : Extension) :
    List TagDecl → Except PyError (List String)
  | [] => .ok []
  | .pat s :: rest =>
      match resolveRelevantTags uriMatch extension rest with
      | .error e => .error e
      | .ok more =>
          .ok (((extension.tags.filter (fun t => uriMatch s t.tag_uri)).map TagDef.tag_uri) ++ more)
  | .notStr :: _ => .error (.typeError "Converter property tags must contain str values")

/-- The type-validation loop of `ConverterProxy.__init__` (lines 199-204):
each declared type must satisfy `isinstance(typ, (str, type))`, otherwise
`TypeError`; on success all declared types are kept in order. -/
def validateTypes : List TypeDecl → Except PyError (List TypeDecl)
  | [] => .ok []
  | .str s :: rest =>
      match validateTypes rest with
      | .error e => .error e
      | .ok more => .ok (.str s :: more)
  | .typeRef n :: rest =>
      match validateTypes rest with
      | .error e => .error e
      | .ok more => .ok (.typeRef n :: more)
  | .other :: _ => .error (.typeError "Converter property types must contain str or type values")

/-- The state of a successfully constructed `ConverterProxy`:
identities of the wrapped delegate and owning extension, the sorted
resolved tag list `_tags`, the validated `_types`, and the delegate
`select_tag` method captured for dispatch. -/
structure ConverterProxy where
  delegateId : Nat
  extensionId : Nat
  tags : List String
  types : List TypeDecl
  delegateSelectTag : Option (Nat → List String → Nat → Option String)

/-- The tail of `ConverterProxy.__init__` after the multi-tag check
(lines 191-204): if no tags resolved and the delegate has no `select_tag`,
return early without inspecting the declared types (`_types` stays empty);
otherwise validate and store the declared types. -/
def finishInit (delegate : Delegate) (extension : Extension) (tags : List String)
    (warnings : List String) : Except PyError (ConverterProxy × List String) :=
  if tags.isEmpty && delegate.select_tag.isNone then
    .ok ({ delegateId := delegate.id, extensionId := extension.id,
           tags := tags, types := [],
           delegateSelectTag := delegate.select_tag }, warnings)
  else
    match validateTypes delegate.types with
    | .error e => .error e
    | .ok tys =>
        .ok ({ delegateId := delegate.id, extensionId := extension.id,
               tags := tags, types := tys,
               delegateSelectTag := delegate.select_tag }, warnings)

/-- Deprecation warning emitted when a genuine `Converter` subclass resolves
more than one tag without implementing `select_tag`. -/
def deprecationMsg : String :=
  "Converter handles multiple tags for this extension, but does not implement a select_tag method. This previously worked because Converter subclasses inherited the now removed select_tag. This will be an error in a future version of asdf"

/-- Error message of the `RuntimeError` raised when a virtual-subclass
converter resolves more than one tag without implementing `select_tag`. -/
def multiTagErrMsg : String :=
  "Converter handles multiple tags for this extension, but does not implement a select_tag method."

/-- Shallow embedding of `ConverterProxy.__init__`: resolve the declared tag
patterns against the extension tag set, apply the multiple-tags/no-`select_tag`
check with its legacy (`Converter in mro`) exemption, then finish via
`finishInit`. Returns the constructed proxy together with the list of
warnings emitted. -/
def converterProxyInit (uriMatch : String → String → Bool) (delegate : Delegate)
    (extension : Extension) : Except PyError (ConverterProxy × List String) :=
  match resolveRelevantTags uriMatch extension delegate.tags with
  | .error e => .error e
  | .ok relevant =>
      let tags := sortedSet relevant
      if tags.length > 1 && delegate.select_tag.isNone then
        if delegate.converterInMro then
          finishInit delegate extension tags [deprecationMsg]
        else
          .error (.runtimeError multiTagErrMsg)
      else
        finishInit delegate extension tags []

/-- Shallow embedding of `ConverterProxy.select_tag` (lines 230-250): with no
delegate `select_tag` method, return `self._tags[0]` (an `IndexError` when the
resolved tag list is empty); otherwise call the delegate method with the
resolved tag list. -/
def ConverterProxy.selectTag (p : ConverterProxy) (obj : Nat) (ctx : Nat) :
    Except PyError (Option String) :=
  match p.delegateSelectTag with
  | none =>
      match p.tags with
      | [] => .error (.indexError "list index out of range")
      | t :: _ => .ok (some t)
  | some m => .ok (m obj p.tags ctx)

/-- Shallow embedding of `ConverterProxy.__eq__` restricted to proxy
arguments: identity comparison of the wrapped delegate and owning
extension. -/
def ConverterProxy.eqProxy (a b : ConverterProxy) : Bool :=
  a.delegateId == b.delegateId && a.extensionId == b.extensionId

/-- Shallow embedding of `ConverterProxy.__hash__`: the hash is a function of
`(id(self.delegate), id(self.extension))`, modelled as that pair itself. -/
def ConverterProxy.hashKey (p : ConverterProxy) : Nat × Nat :=
  (p.delegateId, p.extensionId)

/-- Modelled from the spec: one element returned by a resource-mapping plugin
factory (the module `asdf/entry_points.py` is not under src; only its test is).
An element either implements the Mapping interface (carrying its key-payload
entries) or does not. -/
inductive Candidate where
  | mapping (entries : List (String × String))
  | nonMapping
deriving DecidableEq, Repr

/-- Modelled from the spec: one candidate plugin entry point, with package
provenance and a factory that either raises (error type and message) or
returns a sequence of candidate elements. -/
structure EntryPointModel where
  packageName : String
  packageVersion : String
  factory : Except (String × String) (List Candidate)

/-- Modelled from the spec: the provenance-carrying proxy wrapped around each
surviving resource-mapping element. -/
structure ResourceMappingProxy where
  entries : List (String × String)
  packageName : String
  packageVersion : String
deriving DecidableEq, Repr

/-- Warning recorded when a factory-returned element does not implement the
Mapping interface (per the test in `asdf/tests/test_entry_points.py`). -/
def badElementWarning : String :=
  "TypeError: Resource mapping must implement the Mapping interface"

/-- Modelled from the spec: per-element validation loop of plugin discovery
(spec 4.4 step 3): a non-conforming element yields one warning and is skipped;
conforming elements before and after it are kept, wrapped with package
provenance, in their original order. -/
def processCandidates (pkgName pkgVersion : String) :
    List Candidate → List ResourceMappingProxy × List String
  | [] => ([], [])
  | .mapping es :: rest =>
      let r := processCandidates pkgName pkgVersion rest
      ({ entries := es, packageName := pkgName, packageVersion := pkgVersion } :: r.1, r.2)
  | .nonMapping :: rest =>
      let r := processCandidates pkgName pkgVersion rest
      (r.1, badElementWarning :: r.2)

/-- Modelled from the spec: fault-isolated plugin discovery
(`get_resource_mappings`; spec 4.4): each factory is invoked in isolation; a
raising factory is downgraded to one warning carrying the error type and
message and skipped; surviving elements are validated one by one. Returns
the aggregated proxies and the warnings emitted, in order. -/
def get_resource_mappings : List EntryPointModel → List ResourceMappingProxy × List String
  | [] => ([], [])
  | ep :: rest =>
      let tail := get_resource_mappings rest
      match ep.factory with
      | .error e => (tail.1, (e.1 ++ ": " ++ e.2) :: tail.2)
      | .ok cands =>
          let r := processCandidates ep.packageName ep.packageVersion cands
          (r.1 ++ tail.1, r.2 ++ tail.2)

mutual
/-- Modelled from the spec: the tree node model consumed by the load path
(spec section 6): mapping, sequence, and scalar nodes, where any subtree may
carry a tag. The implementing module is not under src; only its test
(`asdf/_tests/test_types.py`) is. -/
inductive YTree where
  | scalar (v : String)
  | tagged (tag : String) (node : YTree)
  | mapping (entries : YEntries)
  | sequence (elems : YList)
inductive YList where
  | nil
  | cons (hd : YTree) (tl : YList)
inductive YEntries where
  | nil
  | cons (key : String) (val : YTree) (tl : YEntries)
end

mutual
/-- Modelled from the spec: the raw structural value produced by the load
path: mapping, sequence, or scalar, with no tags. -/
inductive RawNode where
  | scalar (v : String)
  | mapping (entries : RawEntries)
  | sequence (elems : RawList)
inductive RawList where
  | nil
  | cons (hd : RawNode) (tl : RawList)
inductive RawEntries where
  | nil
  | cons (key : String) (val : RawNode) (tl : RawEntries)
end

mutual
/-- Modelled from the spec: the load path worker of `from_tree` (spec 4.5,
8.1-8.2), threading the set of already-warned tags: children are converted
bottom-up; at a tagged node whose tag has a registered converter the
converter runs on the converted child; at an unresolved tag the raw
structural value is kept and one warning per distinct tag is recorded
unless suppression is on. -/
def fromTreeAux (registered : String → Bool) (conv : String → RawNode → RawNode)
    (suppress : Bool) : YTree → List String → RawNode × List String
  | .scalar v, warned => (.scalar v, warned)
  | .tagged t sub, warned =>
      let r := fromTreeAux registered conv suppress sub warned
      if registered t then (conv t r.1, r.2)
      else if suppress then (r.1, r.2)
      else if t ∈ r.2 then (r.1, r.2)
      else (r.1, r.2 ++ [t])
  | .mapping entries, warned =>
      let r := fromTreeEntries registered conv suppress entries warned
      (.mapping r.1, r.2)
  | .sequence elems, warned =>
      let r := fromTreeElems registered conv suppress elems warned
      (.sequence r.1, r.2)
def fromTreeElems (registered : String → Bool) (conv : String → RawNode → RawNode)
    (suppress : Bool) : YList → List String → RawList × List String
  | .nil, warned => (.nil, warned)
  | .cons hd tl, warned =>
      let r := fromTreeAux registered conv suppress hd warned
      let rs := fromTreeElems registered conv suppress tl r.2
      (.cons r.1 rs.1, rs.2)
def fromTreeEntries (registered : String → Bool) (conv : String → RawNode → RawNode)
    (suppress : Bool) : YEntries → List String → RawEntries × List String
  | .nil, warned => (.nil, warned)
  | .cons k v tl, warned =>
      let r := fromTreeAux registered conv suppress v warned
      let rs := fromTreeEntries registered conv suppress tl r.2
      (.cons k r.1 rs.1, rs.2)
end

/-- Modelled from the spec: caller-facing load entry point: convert a tagged
tree with an empty warned-tag set. -/
def from_tree (registered : String → Bool) (conv : String → RawNode → RawNode)
    (suppress : Bool) (t : YTree) : RawNode × List String :=
  fromTreeAux registered conv suppress t []

mutual
/-- Structural value of a tagged tree with every tag discarded. -/
def stripTags : YTree → RawNode
  | .scalar v => .scalar v
  | .tagged _ sub => stripTags sub
  | .mapping entries => .mapping (stripEntries entries)
  | .sequence elems => .sequence (stripElems elems)
def stripElems : YList → RawList
  | .nil => .nil
  | .cons hd tl => .cons (stripTags hd) (stripElems tl)
def stripEntries : YEntries → RawEntries
  | .nil => .nil
  | .cons k v tl => .cons k (stripTags v) (stripEntries tl)
end

mutual
/-- All tags occurring in a tagged tree, in bottom-up traversal order. -/
def treeTags : YTree → List String
  | .scalar _ => []
  | .tagged t sub => treeTags sub ++ [t]
  | .mapping entries => entriesTags entries
  | .sequence elems => elemsTags elems
def elemsTags : YList → List String
  | .nil => []
  | .cons hd tl => treeTags hd ++ elemsTags tl
def entriesTags : YEntries → List String
  | .nil => []
  | .cons _ v tl => treeTags v ++ entriesTags tl
end

/-- Exact-match instantiation of `uri_match`, used for concrete evaluations. -/
def eqMatch : String → String → Bool := fun a b => a == b

/-- Concrete extension declaring the two tag URIs `a` and `b`. -/
def extAB : Extension :=
  { id := 0, tags := [{ tag_uri := "a" }, { tag_uri := "b" }] }

/-- Concrete legacy delegate (genuine `Converter` subclass) resolving two
tags with no `select_tag`. -/
def dLegacy : Delegate :=
  { id := 1, tags := [.pat "a", .pat "b"], types := [],
    select_tag := none, converterInMro := true }

/-- Concrete delegate resolving no tags, with no `select_tag`, declaring one
type. -/
def dNoTags : Delegate :=
  { id := 2, tags := [], types := [.typeRef "Foo"],
    select_tag := none, converterInMro := false }

/-- Concrete delegate declaring the empty string as a type, with a
`select_tag` method. -/
def dEmptyStr : Delegate :=
  { id := 3, tags := [], types := [.str ""],
    select_tag := some (fun _ _ _ => none), converterInMro := false }

/-- Concrete delegate whose `tags` declaration contains a non-string. -/
def dBadTag : Delegate :=
  { id := 4, tags := [.notStr], types := [],
    select_tag := none, converterInMro := false }

/-- Concrete delegate resolving exactly the tag `a`, with no `select_tag`. -/
def dOneTag : Delegate :=
  { id := 5, tags := [.pat "a"], types := [.str "x"],
    select_tag := none, converterInMro := false }

/-- Proxy produced by registering `dOneTag` under `extAB`. -/
def pOneTag : ConverterProxy :=
  { delegateId := 5, extensionId := 0, tags := ["a"], types := [.str "x"],
    delegateSelectTag := none }

/-- Proxy produced by registering `dNoTags` under `extAB`. -/
def pNoTags : ConverterProxy :=
  { delegateId := 2, extensionId := 0, tags := [], types := [],
    delegateSelectTag := none }

/-- Registry with no registered converters. -/
def regNone : String → Bool := fun _ => false

/-- Trivial converter action, never reached when no tag is registered. -/
def convId : String → RawNode → RawNode := fun _ r => r

/-- Concrete tagged tree with two distinct unresolved tags, one of which
(`u`) occurs twice. -/
def tree0 : YTree :=
  .tagged "u" (.sequence (.cons (.scalar "5")
    (.cons (.tagged "u" (.tagged "v" (.scalar "6"))) .nil)))

/-! Helper lemmas shared by the claim theorems. -/

theorem sortedSet_ab : sortedSet ["a", "b"] = ["a", "b"] := by
  have h : ("a" : String) ≤ "b" := String.le_iff_toList_le.mpr (by decide)
  have hd : (["a", "b"] : List String).dedup = ["a", "b"] := by decide
  simp [sortedSet, hd, List.insertionSort, List.orderedInsert, h]

theorem mem_sortedSet {t : String} {l : List String} : t ∈ sortedSet l ↔ t ∈ l := by
  unfold sortedSet
  rw [List.mem_insertionSort, List.mem_dedup]

theorem sortedSet_nodup (l : List String) : (sortedSet l).Nodup :=
  (List.perm_insertionSort _ _).symm.nodup (List.nodup_dedup l)

theorem sortedSet_sorted (l : List String) : (sortedSet l).Sorted (· < ·) :=
  (List.sorted_insertionSort _ _).lt_of_le (sortedSet_nodup l)

theorem finishInit_ok {d : Delegate} {e : Extension} {tags ws ws' : List String}
    {p : ConverterProxy} (h : finishInit d e tags ws = .ok (p, ws')) :
    p.delegateId = d.id ∧ p.extensionId = e.id ∧ p.tags = tags ∧
      p.delegateSelectTag = d.select_tag ∧ ws' = ws := by
  unfold finishInit at h
  split at h
  · simp only [Except.ok.injEq, Prod.mk.injEq] at h
    obtain ⟨h1, h2⟩ := h
    subst h1; subst h2
    exact ⟨rfl, rfl, rfl, rfl, rfl⟩
  · split at h
    · exact absurd h (by simp)
    · simp only [Except.ok.injEq, Prod.mk.injEq] at h
      obtain ⟨h1, h2⟩ := h
      subst h1; subst h2
      exact ⟨rfl, rfl, rfl, rfl, rfl⟩

theorem converterProxyInit_ok {um : String → String → Bool} {d : Delegate}
    {e : Extension} {p : ConverterProxy} {ws : List String}
    (h : converterProxyInit um d e = .ok (p, ws)) :
    ∃ relevant, resolveRelevantTags um e d.tags = .ok relevant ∧
      p.delegateId = d.id ∧ p.extensionId = e.id ∧ p.tags = sortedSet relevant ∧
      p.delegateSelectTag = d.select_tag := by
  unfold converterProxyInit at h
  split at h
  · exact absurd h (by simp)
  · next relevant heq =>
    refine ⟨relevant, heq, ?_⟩
    dsimp only at h
    split at h
    · split at h
      · obtain ⟨h1, h2, h3, h4, _⟩ := finishInit_ok h
        exact ⟨h1, h2, h3, h4⟩
      · exact absurd h (by simp)
    · obtain ⟨h1, h2, h3, h4, _⟩ := finishInit_ok h
      exact ⟨h1, h2, h3, h4⟩

theorem resolveRelevantTags_error_of_notStr {um : String → String → Bool}
    {e : Extension} {decls : List TagDecl} (h : TagDecl.notStr ∈ decls) :
    resolveRelevantTags um e decls =
      .error (.typeError "Converter property tags must contain str values") := by
  induction decls with
  | nil => cases h
  | cons hd rest ih =>
      cases hd with
      | notStr => simp [resolveRelevantTags]
      | pat s =>
          have hm : TagDecl.notStr ∈ rest := by
            rcases List.mem_cons.mp h with h1 | h1
            · cases h1
            · exact h1
          simp [resolveRelevantTags, ih hm]

theorem resolveRelevantTags_ok_mem {um : String → String → Bool} {e : Extension}
    {decls : List TagDecl} {res : List String}
    (h : resolveRelevantTags um e decls = .ok res) (t : String) :
    t ∈ res ↔ ∃ pt, TagDecl.pat pt ∈ decls ∧
      ∃ td, td ∈ e.tags ∧ td.tag_uri = t ∧ um pt t = true := by
  induction decls generalizing res with
  | nil =>
      simp only [resolveRelevantTags, Except.ok.injEq] at h
      subst h
      simp
  | cons hd rest ih =>
      cases hd with
      | notStr => simp [resolveRelevantTags] at h
      | pat s =>
          simp only [resolveRelevantTags] at h
          cases hrec : resolveRelevantTags um e rest with
          | error err => simp [hrec] at h
          | ok more =>
              rw [hrec] at h
              simp only [Except.ok.injEq] at h
              subst h
              have ihm := ih hrec
              simp only [List.mem_append, List.mem_map, List.mem_filter, ihm,
                List.mem_cons]
              constructor
              · rintro (⟨td, ⟨htd, hum⟩, rfl⟩ | ⟨pt, hpt, td, htd, rfl, hum⟩)
                · exact ⟨s, Or.inl rfl, td, htd, rfl, hum⟩
                · exact ⟨pt, Or.inr hpt, td, htd, rfl, hum⟩
              · rintro ⟨pt, hpt, td, htd, rfl, hum⟩
                rcases hpt with heq | hmem
                · cases heq
                  exact Or.inl ⟨td, ⟨htd, hum⟩, rfl⟩
                · exact Or.inr ⟨pt, hmem, td, htd, rfl, hum⟩

theorem validateTypes_ok_of_no_other {l : List TypeDecl}
    (h : ∀ ty ∈ l, ty ≠ TypeDecl.other) : validateTypes l = .ok l := by
  induction l with
  | nil => rfl
  | cons hd rest ih =>
      have hr : validateTypes rest = .ok rest :=
        ih fun ty hty => h ty (List.mem_cons_of_mem _ hty)
      cases hd with
      | str s => simp [validateTypes, hr]
      | typeRef n => simp [validateTypes, hr]
      | other => exact absurd rfl (h .other (List.mem_cons_self _ _))

theorem validateTypes_error_of_other {l : List TypeDecl}
    (h : TypeDecl.other ∈ l) :
    validateTypes l =
      .error (.typeError "Converter property types must contain str or type values") := by
  induction l with
  | nil => cases h
  | cons hd rest ih =>
      cases hd with
      | other => simp [validateTypes]
      | str s =>
          have hm : TypeDecl.other ∈ rest := by
            rcases List.mem_cons.mp h with h1 | h1
            · cases h1
            · exact h1
          simp [validateTypes, ih hm]
      | typeRef n =>
          have hm : TypeDecl.other ∈ rest := by
            rcases List.mem_cons.mp h with h1 | h1
            · cases h1
            · exact h1
          simp [validateTypes, ih hm]

/-- C8: ConverterProxy construction rejects, with the tags TypeError, every
delegate whose tags declaration contains a non-string pattern; the rejection
holds for every matching function and every extension, so no tag resolution
using that pattern can influence the outcome. -/
theorem nonStringTagPatternRejected (um : String → String → Bool) (d : Delegate)
    (e : Extension) (h : TagDecl.notStr ∈ d.tags) :
    converterProxyInit um d e =
      .error (.typeError "Converter property tags must contain str values") := by
  unfold converterProxyInit
  rw [resolveRelevantTags_error_of_notStr h]

theorem nonStringTagPatternRejected_witness :
    TagDecl.notStr ∈ dBadTag.tags ∧
      converterProxyInit eqMatch dBadTag extAB =
        .error (.typeError "Converter property tags must contain str values") :=
  ⟨by simp [dBadTag],
   nonStringTagPatternRejected eqMatch dBadTag extAB (by simp [dBadTag])⟩

/-- C9: two constructed proxies are equal exactly when they wrap the identical
delegate instance and the identical owning extension instance (identity
modelled by the `id` fields); this equality is reflexive and symmetric, and
equal proxies have equal hash keys. -/
theorem proxyEqualityIffSameInstances (um1 um2 : String → String → Bool)
    (d1 d2 : Delegate) (e1 e2 : Extension) (p1 p2 : ConverterProxy)
    (w1 w2 : List String)
    (h1 : converterProxyInit um1 d1 e1 = .ok (p1, w1))
    (h2 : converterProxyInit um2 d2 e2 = .ok (p2, w2)) :
    (p1.eqProxy p2 = true ↔ d1.id = d2.id ∧ e1.id = e2.id) ∧
      p1.eqProxy p1 = true ∧
      (p1.eqProxy p2 = true ↔ p2.eqProxy p1 = true) ∧
      (p1.eqProxy p2 = true → p1.hashKey = p2.hashKey) := by
  obtain ⟨r1, _, hd1, he1, _, _⟩ := converterProxyInit_ok h1
  obtain ⟨r2, _, hd2, he2, _, _⟩ := converterProxyInit_ok h2
  simp only [ConverterProxy.eqProxy, ConverterProxy.hashKey, Bool.and_eq_true,
    beq_iff_eq, hd1, he1, hd2, he2, Prod.mk.injEq]
  tauto

theorem proxyEquality_witness :
    converterProxyInit eqMatch dOneTag extAB = .ok (pOneTag, []) ∧
      ((pOneTag.eqProxy pOneTag = true ↔ dOneTag.id = dOneTag.id ∧ extAB.id = extAB.id) ∧
        pOneTag.eqProxy pOneTag = true ∧
        (pOneTag.eqProxy pOneTag = true ↔ pOneTag.eqProxy pOneTag = true) ∧
        (pOneTag.eqProxy pOneTag = true → pOneTag.hashKey = pOneTag.hashKey)) :=
  ⟨rfl, proxyEqualityIffSameInstances eqMatch eqMatch dOneTag dOneTag extAB extAB
    pOneTag pOneTag [] [] rfl rfl⟩

/-- C7: on a constructed proxy whose delegate supplies no select_tag and whose
resolved tag list is the singleton `[t]`, `select_tag` returns `t`; when the
delegate supplies a select_tag method, the proxy returns the delegate's choice
invoked with the resolved tag list. -/
theorem selectTagDefaultAndDelegate (um : String → String → Bool) (d : Delegate)
    (e : Extension) (p : ConverterProxy) (ws : List String) (obj ctx : Nat)
    (h : converterProxyInit um d e = .ok (p, ws)) :
    (∀ t, d.select_tag = none → p.tags = [t] →
      p.selectTag obj ctx = .ok (some t)) ∧
      (∀ m, d.select_tag = some m →
        p.selectTag obj ctx = .ok (m obj p.tags ctx)) := by
  obtain ⟨r, _, _, _, _, hsel⟩ := converterProxyInit_ok h
  constructor
  · intro t hnone htag
    simp [ConverterProxy.selectTag, hsel, hnone, htag]
  · intro m hsome
    simp [ConverterProxy.selectTag, hsel, hsome]

theorem selectTagDefault_witness :
    converterProxyInit eqMatch dOneTag extAB = .ok (pOneTag, []) ∧
      ((∀ t, dOneTag.select_tag = none → pOneTag.tags = [t] →
        pOneTag.selectTag 0 0 = .ok (some t)) ∧
        (∀ m, dOneTag.select_tag = some m →
          pOneTag.selectTag 0 0 = .ok (m 0 pOneTag.tags 0))) :=
  ⟨rfl, selectTagDefaultAndDelegate eqMatch dOneTag extAB pOneTag [] 0 0 rfl⟩

/-- C10: on a constructed proxy whose delegate supplies no select_tag, the
default `select_tag` indexes the first element of the resolved tag list: it
fails with an IndexError when zero tags resolved, and returns the first
resolved tag whenever at least one tag resolved. -/
theorem selectTagDefaultRequiresTag (um : String → String → Bool) (d : Delegate)
    (e : Extension) (p : ConverterProxy) (ws : List String) (obj ctx : Nat)
    (h : converterProxyInit um d e = .ok (p, ws))
    (hnone : d.select_tag = none) :
    (p.tags = [] →
      p.selectTag obj ctx = .error (.indexError "list index out of range")) ∧
      (∀ t rest, p.tags = t :: rest → p.selectTag obj ctx = .ok (some t)) := by
  obtain ⟨r, _, _, _, _, hsel⟩ := converterProxyInit_ok h
  constructor
  · intro htag
    simp [ConverterProxy.selectTag, hsel, hnone, htag]
  · intro t rest htag
    simp [ConverterProxy.selectTag, hsel, hnone, htag]

theorem selectTagRequiresTag_witness :
    (converterProxyInit eqMatch dNoTags extAB = .ok (pNoTags, []) ∧
      dNoTags.select_tag = none) ∧
      ((pNoTags.tags = [] →
        pNoTags.selectTag 0 0 = .error (.indexError "list index out of range")) ∧
        (∀ t rest, pNoTags.tags = t :: rest →
          pNoTags.selectTag 0 0 = .ok (some t))) :=
  ⟨⟨rfl, rfl⟩,
   selectTagDefaultRequiresTag eqMatch dNoTags extAB pNoTags [] 0 0 rfl rfl⟩

/-- C6: every constructed proxy's resolved tag list is strictly sorted (hence
duplicate free), and contains exactly the extension tag URIs matched by at
least one of the delegate's string patterns; the tags property is exactly this
deterministic sorted list. -/
theorem resolvedTagsSortedUnion (um : String → String → Bool) (d : Delegate)
    (e : Extension) (p : ConverterProxy) (ws : List String)
    (h : converterProxyInit um d e = .ok (p, ws)) :
    p.tags.Sorted (· < ·) ∧ p.tags.Nodup ∧
      ∀ t, (t ∈ p.tags ↔ ∃ pt, TagDecl.pat pt ∈ d.tags ∧
        ∃ td, td ∈ e.tags ∧ td.tag_uri = t ∧ um pt t = true) := by
  obtain ⟨r, hres, _, _, htags, _⟩ := converterProxyInit_ok h
  refine ⟨?_, ?_, ?_⟩
  · rw [htags]; exact sortedSet_sorted r
  · rw [htags]; exact sortedSet_nodup r
  · intro t
    rw [htags, mem_sortedSet]
    exact resolveRelevantTags_ok_mem hres t

theorem resolvedTags_witness :
    converterProxyInit eqMatch dOneTag extAB = .ok (pOneTag, []) ∧
      (pOneTag.tags.Sorted (· < ·) ∧ pOneTag.tags.Nodup ∧
        ∀ t, (t ∈ pOneTag.tags ↔ ∃ pt, TagDecl.pat pt ∈ dOneTag.tags ∧
          ∃ td, td ∈ extAB.tags ∧ td.tag_uri = t ∧ eqMatch pt t = true)) :=
  ⟨rfl, resolvedTagsSortedUnion eqMatch dOneTag extAB pOneTag [] rfl⟩

/-- C1: when a delegate with no select_tag resolves more than one tag,
construction fails with a RuntimeError unless the delegate is a genuine
Converter subclass (the legacy exemption), in which case it succeeds, emits
exactly the one deprecation warning, and the default select_tag returns the
first element of the sorted resolved tag list. -/
theorem multiTagNoSelectTagBehavior (um : String → String → Bool) (d : Delegate)
    (e : Extension) (relevant : List String)
    (hres : resolveRelevantTags um e d.tags = .ok relevant)
    (hlen : 1 < (sortedSet relevant).length)
    (hnone : d.select_tag = none)
    (htypes : ∀ ty ∈ d.types, ty ≠ TypeDecl.other) :
    (d.converterInMro = false →
      converterProxyInit um d e = .error (.runtimeError multiTagErrMsg)) ∧
    (d.converterInMro = true →
      ∃ p t rest, converterProxyInit um d e = .ok (p, [deprecationMsg]) ∧
        p.tags = t :: rest ∧ p.tags = sortedSet relevant ∧
        ∀ obj ctx, p.selectTag obj ctx = .ok (some t)) := by
  have hcond : (decide ((sortedSet relevant).length > 1) && d.select_tag.isNone) = true := by
    simp [hlen, hnone]
  constructor
  · intro hm
    unfold converterProxyInit
    rw [hres]
    dsimp only
    rw [if_pos hcond, hm]
    simp
  · intro hm
    unfold converterProxyInit
    rw [hres]
    dsimp only
    rw [if_pos hcond, hm]
    simp only [if_true]
    obtain ⟨t, rest, htr⟩ : ∃ t rest, sortedSet relevant = t :: rest := by
      cases hsr : sortedSet relevant with
      | nil => rw [hsr] at hlen; simp at hlen
      | cons a l => exact ⟨a, l, rfl⟩
    refine ⟨{ delegateId := d.id, extensionId := e.id, tags := sortedSet relevant,
              types := d.types, delegateSelectTag := d.select_tag }, t, rest, ?_, htr, rfl, ?_⟩
    · have hne : (sortedSet relevant).isEmpty = false := by rw [htr]; rfl
      unfold finishInit
      rw [if_neg (by simp [hne]), validateTypes_ok_of_no_other htypes]
    · intro obj ctx
      simp [ConverterProxy.selectTag, hnone, htr]

theorem multiTagLegacy_witness :
    (resolveRelevantTags eqMatch extAB dLegacy.tags = .ok ["a", "b"] ∧
      1 < (sortedSet ["a", "b"]).length ∧ dLegacy.select_tag = none ∧
      (∀ ty ∈ dLegacy.types, ty ≠ TypeDecl.other)) ∧
      ((dLegacy.converterInMro = false →
        converterProxyInit eqMatch dLegacy extAB = .error (.runtimeError multiTagErrMsg)) ∧
       (dLegacy.converterInMro = true →
        ∃ p t rest, converterProxyInit eqMatch dLegacy extAB = .ok (p, [deprecationMsg]) ∧
          p.tags = t :: rest ∧ p.tags = sortedSet ["a", "b"] ∧
          ∀ obj ctx, p.selectTag obj ctx = .ok (some t))) :=
  ⟨⟨rfl, by rw [sortedSet_ab]; decide, rfl, by simp [dLegacy]⟩,
   multiTagNoSelectTagBehavior eqMatch dLegacy extAB ["a", "b"] rfl
     (by rw [sortedSet_ab]; decide) rfl (by simp [dLegacy])⟩

/-- C4 counterexample: a delegate with no resolved tags and no select_tag but
one declared type constructs a proxy whose types property is empty, not the
delegate's declared type list. -/
theorem noTagsTypes_counterexample :
    (converterProxyInit eqMatch dNoTags extAB).toOption.map (fun r => r.1.types) =
      some [] ∧ dNoTags.types = [TypeDecl.typeRef "Foo"] :=
  ⟨rfl, rfl⟩

/-- C4 amended: a delegate with no resolved tags and no select_tag constructs
(with no warnings) a proxy contributing no tag-based entries and no type-based
entries either: the declared types are never inspected and the types property
is empty. -/
theorem noTagsNoSelectTagNotIndexed (um : String → String → Bool) (d : Delegate)
    (e : Extension) (relevant : List String)
    (hres : resolveRelevantTags um e d.tags = .ok relevant)
    (hempty : sortedSet relevant = [])
    (hnone : d.select_tag = none) :
    converterProxyInit um d e =
      .ok ({ delegateId := d.id, extensionId := e.id, tags := [], types := [],
             delegateSelectTag := d.select_tag }, []) := by
  unfold converterProxyInit
  rw [hres]
  dsimp only
  rw [hempty]
  simp [finishInit, hnone]

theorem noTagsNoSelectTag_witness :
    (resolveRelevantTags eqMatch extAB dNoTags.tags = .ok [] ∧
      sortedSet [] = [] ∧ dNoTags.select_tag = none) ∧
      converterProxyInit eqMatch dNoTags extAB =
        .ok ({ delegateId := dNoTags.id, extensionId := extAB.id, tags := [],
               types := [], delegateSelectTag := dNoTags.select_tag }, []) :=
  ⟨⟨rfl, rfl, rfl⟩, noTagsNoSelectTagNotIndexed eqMatch dNoTags extAB [] rfl rfl rfl⟩

/-- C5 counterexample: a delegate declaring the empty string as a type
constructs successfully, with the empty string kept in the types property;
no TypeError is raised. -/
theorem emptyStringType_counterexample :
    (converterProxyInit eqMatch dEmptyStr extAB).toOption.map (fun r => r.1.types) =
      some [TypeDecl.str ""] ∧ TypeDecl.str "" ∈ dEmptyStr.types :=
  ⟨rfl, by simp [dEmptyStr]⟩

/-- C5 amended: when construction reaches type validation (here because the
delegate supplies a select_tag method), a declared type that is neither a
string nor a type object causes a TypeError; every string (the empty string
included) and every type object is accepted and kept in the types property. -/
theorem typeValidationAcceptsAnyString (um : String → String → Bool) (d : Delegate)
    (e : Extension) (relevant : List String)
    (m : Nat → List String → Nat → Option String)
    (hres : resolveRelevantTags um e d.tags = .ok relevant)
    (hsome : d.select_tag = some m) :
    (TypeDecl.other ∈ d.types →
      converterProxyInit um d e =
        .error (.typeError "Converter property types must contain str or type values")) ∧
    (TypeDecl.other ∉ d.types →
      converterProxyInit um d e =
        .ok ({ delegateId := d.id, extensionId := e.id, tags := sortedSet relevant,
               types := d.types, delegateSelectTag := d.select_tag }, [])) := by
  have hcond : (decide ((sortedSet relevant).length > 1) && d.select_tag.isNone) = false := by
    simp [hsome]
  constructor
  · intro hother
    unfold converterProxyInit
    rw [hres]
    dsimp only
    rw [hcond]
    simp [finishInit, hsome, validateTypes_error_of_other hother]
  · intro hother
    have hok : validateTypes d.types = .ok d.types :=
      validateTypes_ok_of_no_other fun ty hty heq => hother (heq ▸ hty)
    unfold converterProxyInit
    rw [hres]
    dsimp only
    rw [hcond]
    simp [finishInit, hsome, hok]

theorem typeValidation_witness :
    (resolveRelevantTags eqMatch extAB dEmptyStr.tags = .ok [] ∧
      dEmptyStr.select_tag = some (fun _ _ _ => none)) ∧
      ((TypeDecl.other ∈ dEmptyStr.types →
        converterProxyInit eqMatch dEmptyStr extAB =
          .error (.typeError "Converter property types must contain str or type values")) ∧
       (TypeDecl.other ∉ dEmptyStr.types →
        converterProxyInit eqMatch dEmptyStr extAB =
          .ok ({ delegateId := dEmptyStr.id, extensionId := extAB.id,
                 tags := sortedSet [], types := dEmptyStr.types,
                 delegateSelectTag := dEmptyStr.select_tag }, []))) :=
  ⟨⟨rfl, rfl⟩,
   typeValidationAcceptsAnyString eqMatch dEmptyStr extAB [] (fun _ _ _ => none) rfl rfl⟩

theorem processCandidates_eq (pn pv : String) (cands : List Candidate) :
    processCandidates pn pv cands =
      (cands.filterMap (fun c =>
        match c with
        | .mapping es =>
            some ({ entries := es, packageName := pn,
                    packageVersion := pv } : ResourceMappingProxy)
        | .nonMapping => none),
       cands.filterMap (fun c =>
        match c with
        | .mapping _ => none
        | .nonMapping => some badElementWarning)) := by
  induction cands with
  | nil => rfl
  | cons hd rest ih => cases hd <;> simp [processCandidates, ih]

/-- C3: plugin discovery is a total function (it never raises) and is
fault-isolated: its aggregate result is the in-order concatenation, over the
candidate plugins, of the conforming elements of each non-raising factory
wrapped with that plugin's provenance — so a raising factory is skipped
while every other plugin's contributions are kept in their original relative
order — and its warnings are exactly one per raising factory, carrying the
error type and message, plus one per non-conforming element, naming the
violation, in the same order. -/
theorem pluginDiscoveryFaultIsolated (eps : List EntryPointModel) :
    (get_resource_mappings eps).1 =
      eps.flatMap (fun ep =>
        match ep.factory with
        | .error _ => []
        | .ok cands => cands.filterMap (fun c =>
            match c with
            | .mapping es =>
                some ({ entries := es, packageName := ep.packageName,
                        packageVersion := ep.packageVersion } : ResourceMappingProxy)
            | .nonMapping => none)) ∧
    (get_resource_mappings eps).2 =
      eps.flatMap (fun ep =>
        match ep.factory with
        | .error e => [e.1 ++ ": " ++ e.2]
        | .ok cands => cands.filterMap (fun c =>
            match c with
            | .mapping _ => none
            | .nonMapping => some badElementWarning)) := by
  induction eps with
  | nil => exact ⟨rfl, rfl⟩
  | cons ep rest ih =>
      obtain ⟨ih1, ih2⟩ := ih
      cases hf : ep.factory with
      | error e =>
          constructor
          · simp [get_resource_mappings, hf, ih1]
          · simp [get_resource_mappings, hf, ih2]
      | ok cands =>
          constructor
          · simp [get_resource_mappings, hf, ih1, processCandidates_eq]
          · simp [get_resource_mappings, hf, ih2, processCandidates_eq]

section FromTreeInvariant

variable (registered : String → Bool) (conv : String → RawNode → RawNode)

mutual

theorem fromTreeAux_unresolved : ∀ (t : YTree) (warned : List String),
    (∀ s ∈ treeTags t, registered s = false) →
    (fromTreeAux registered conv false t warned).1 = stripTags t ∧
      (warned.Nodup → (fromTreeAux registered conv false t warned).2.Nodup) ∧
      (∀ s, s ∈ (fromTreeAux registered conv false t warned).2 ↔
        s ∈ warned ∨ s ∈ treeTags t)
  | .scalar v, warned, h => by
      simp [fromTreeAux, stripTags, treeTags]
  | .tagged tg sub, warned, h => by
      obtain ⟨h1, h2, h3⟩ := fromTreeAux_unresolved sub warned
        (fun s hs => h s (by simp [treeTags, hs]))
      have htg : registered tg = false := h tg (by simp [treeTags])
      simp only [fromTreeAux, htg, Bool.false_eq_true, if_false, stripTags, treeTags]
      by_cases hmem : tg ∈ (fromTreeAux registered conv false sub warned).2
      · rw [if_pos hmem]
        refine ⟨h1, h2, ?_⟩
        intro s
        rw [h3 s]
        simp only [List.mem_append, List.mem_singleton]
        constructor
        · rintro (hs | hs)
          · exact Or.inl hs
          · exact Or.inr (Or.inl hs)
        · rintro (hs | hs | rfl)
          · exact Or.inl hs
          · exact Or.inr hs
          · exact (h3 s).mp hmem
      · rw [if_neg hmem]
        refine ⟨h1, ?_, ?_⟩
        · intro hw
          have hnd := h2 hw
          simp [List.nodup_append, hnd, hmem]
        · intro s
          simp only [List.mem_append, List.mem_singleton, h3 s]
          tauto
  | .mapping entries, warned, h => by
      obtain ⟨h1, h2, h3⟩ := fromTreeEntries_unresolved entries warned
        (by simpa [treeTags] using h)
      simp only [fromTreeAux, stripTags, treeTags]
      exact ⟨by rw [h1], h2, h3⟩
  | .sequence elems, warned, h => by
      obtain ⟨h1, h2, h3⟩ := fromTreeElems_unresolved elems warned
        (by simpa [treeTags] using h)
      simp only [fromTreeAux, stripTags, treeTags]
      exact ⟨by rw [h1], h2, h3⟩

theorem fromTreeElems_unresolved : ∀ (l : YList) (warned : List String),
    (∀ s ∈ elemsTags l, registered s = false) →
    (fromTreeElems registered conv false l warned).1 = stripElems l ∧
      (warned.Nodup → (fromTreeElems registered conv false l warned).2.Nodup) ∧
      (∀ s, s ∈ (fromTreeElems registered conv false l warned).2 ↔
        s ∈ warned ∨ s ∈ elemsTags l)
  | .nil, warned, h => by
      simp [fromTreeElems, stripElems, elemsTags]
  | .cons hd tl, warned, h => by
      obtain ⟨a1, a2, a3⟩ := fromTreeAux_unresolved hd warned
        (fun s hs => h s (by simp [elemsTags, hs]))
      obtain ⟨b1, b2, b3⟩ := fromTreeElems_unresolved tl
        (fromTreeAux registered conv false hd warned).2
        (fun s hs => h s (by simp [elemsTags, hs]))
      simp only [fromTreeElems, stripElems, elemsTags]
      refine ⟨by rw [a1, b1], ?_, ?_⟩
      · intro hw
        exact b2 (a2 hw)
      · intro s
        simp only [List.mem_append, b3 s, a3 s]
        tauto

theorem fromTreeEntries_unresolved : ∀ (es : YEntries) (warned : List String),
    (∀ s ∈ entriesTags es, registered s = false) →
    (fromTreeEntries registered conv false es warned).1 = stripEntries es ∧
      (warned.Nodup → (fromTreeEntries registered conv false es warned).2.Nodup) ∧
      (∀ s, s ∈ (fromTreeEntries registered conv false es warned).2 ↔
        s ∈ warned ∨ s ∈ entriesTags es)
  | .nil, warned, h => by
      simp [fromTreeEntries, stripEntries, entriesTags]
  | .cons k v tl, warned, h => by
      obtain ⟨a1, a2, a3⟩ := fromTreeAux_unresolved v warned
        (fun s hs => h s (by simp [entriesTags, hs]))
      obtain ⟨b1, b2, b3⟩ := fromTreeEntries_unresolved tl
        (fromTreeAux registered conv false v warned).2
        (fun s hs => h s (by simp [entriesTags, hs]))
      simp only [fromTreeEntries, stripEntries, entriesTags]
      refine ⟨by rw [a1, b1], ?_, ?_⟩
      · intro hw
        exact b2 (a2 hw)
      · intro s
        simp only [List.mem_append, b3 s, a3 s]
        tauto

end

mutual

theorem fromTreeAux_suppressed : ∀ (t : YTree) (warned : List String),
    (∀ s ∈ treeTags t, registered s = false) →
    fromTreeAux registered conv true t warned = (stripTags t, warned)
  | .scalar v, warned, h => by
      simp [fromTreeAux, stripTags]
  | .tagged tg sub, warned, h => by
      have hsub := fromTreeAux_suppressed sub warned
        (fun s hs => h s (by simp [treeTags, hs]))
      have htg : registered tg = false := h tg (by simp [treeTags])
      simp [fromTreeAux, hsub, htg, stripTags]
  | .mapping entries, warned, h => by
      have he := fromTreeEntries_suppressed entries warned
        (by simpa [treeTags] using h)
      simp [fromTreeAux, he, stripTags]
  | .sequence elems, warned, h => by
      have he := fromTreeElems_suppressed elems warned
        (by simpa [treeTags] using h)
      simp [fromTreeAux, he, stripTags]

theorem fromTreeElems_suppressed : ∀ (l : YList) (warned : List String),
    (∀ s ∈ elemsTags l, registered s = false) →
    fromTreeElems registered conv true l warned = (stripElems l, warned)
  | .nil, warned, h => by
      simp [fromTreeElems, stripElems]
  | .cons hd tl, warned, h => by
      have ha := fromTreeAux_suppressed hd warned
        (fun s hs => h s (by simp [elemsTags, hs]))
      have hb := fromTreeElems_suppressed tl warned
        (fun s hs => h s (by simp [elemsTags, hs]))
      simp [fromTreeElems, ha, hb, stripElems]

theorem fromTreeEntries_suppressed : ∀ (es : YEntries) (warned : List String),
    (∀ s ∈ entriesTags es, registered s = false) →
    fromTreeEntries registered conv true es warned = (stripEntries es, warned)
  | .nil, warned, h => by
      simp [fromTreeEntries, stripEntries]
  | .cons k v tl, warned, h => by
      have ha := fromTreeAux_suppressed v warned
        (fun s hs => h s (by simp [entriesTags, hs]))
      have hb := fromTreeEntries_suppressed tl warned
        (fun s hs => h s (by simp [entriesTags, hs]))
      simp [fromTreeEntries, ha, hb, stripEntries]

end

end FromTreeInvariant

/-- C2: on any tree all of whose tags are unresolved, the load path succeeds
and returns the structurally equivalent raw value with the tags discarded,
emitting exactly one warning per distinct unresolved tag even when a tag
recurs; with suppression requested the result is identical and zero warnings
are emitted. -/
theorem unresolvedTagsGiveRawValueAndDedupedWarnings (registered : String → Bool)
    (conv : String → RawNode → RawNode) (tree : YTree)
    (h : ∀ t ∈ treeTags tree, registered t = false) :
    (from_tree registered conv false tree).1 = stripTags tree ∧
      (∀ t, (from_tree registered conv false tree).2.count t =
        if t ∈ treeTags tree then 1 else 0) ∧
      from_tree registered conv true tree = (stripTags tree, []) := by
  obtain ⟨h1, h2, h3⟩ := fromTreeAux_unresolved registered conv tree [] h
  refine ⟨h1, ?_, fromTreeAux_suppressed registered conv tree [] h⟩
  intro t
  have hnd := h2 List.nodup_nil
  have hm := h3 t
  simp only [List.not_mem_nil, false_or] at hm
  by_cases hmem : t ∈ treeTags tree
  · rw [if_pos hmem]
    exact List.count_eq_one_of_mem hnd (hm.mpr hmem)
  · rw [if_neg hmem]
    exact List.count_eq_zero.mpr (fun hc => hmem (hm.mp hc))

theorem unresolvedTags_witness :
    (∀ t ∈ treeTags tree0, regNone t = false) ∧
      ((from_tree regNone convId false tree0).1 = stripTags tree0 ∧
        (∀ t, (from_tree regNone convId false tree0).2.count t =
          if t ∈ treeTags tree0 then 1 else 0) ∧
        from_tree regNone convId true tree0 = (stripTags tree0, [])) :=
  ⟨fun _ _ => rfl,
   unresolvedTagsGiveRawValueAndDedupedWarnings regNone convId tree0 (fun _ _ => rfl)⟩

end Asdf
